import Mathlib

/-!
Verification of the project-settings route handler
(`apps/webapp/app/features/ee/projects/routes/$projectP/settings.tsx`).

The handler is embedded shallowly: form data is a list of key/value string
pairs, JavaScript object construction (`Object.fromEntries`, spread-update)
is modelled by an association list with in-place update and
append-if-absent semantics, and the two service collaborators plus the
schema validator (which live outside the provided sources) are injected as
an explicit environment, as the design notes themselves suggest.
The handler returns the response it would produce together with a trace of
the collaborator calls it performed, in order.
-/

namespace Settings

/-- A validated settings payload.  The handler never inspects it; it is
produced by the validator and handed verbatim to the update orchestrator. -/
abbrev VData := List (String × String)

/-- A field-path/message pair as carried by the payload-error variant. -/
structure FieldError where
  path : String
  message : String
deriving DecidableEq, Repr

/-- The tagged validation result returned by `UpdateProjectSettings.validate`. -/
inductive ValidationResult where
  | payloadError (errors : List FieldError)
  | success (data : VData)
deriving DecidableEq, Repr

/-- Project metadata returned by `DisableProjectService.call`. -/
structure Project where
  name : String
deriving DecidableEq, Repr

/-- Modelled from the spec: the collaborators consumed by the route handler
(`DisableProjectService.call`, `UpdateProjectSettings.validate`,
`UpdateProjectSettings.call`), whose implementations are not part of the
provided sources.  The spec describes them as injected service objects:
the disable orchestrator maps a project identifier to the removed
project's metadata, the validator maps the flat fields and the reshaped
environment-variable mapping to a tagged validation result, and the update
orchestrator maps a project identifier and validated data to the
`isDeploying` boolean. -/
structure Env where
  disableCall : String → Project
  validate : List (String × String) → List (String × String) → ValidationResult
  updateCall : String → VData → Bool

/-- A flash-message session, keyed by the human-readable message. -/
structure Session where
  message : String
deriving DecidableEq, Repr

/-- Modelled from the spec: `setRequestSuccessMessage` (from
`~/models/message.server`, not in the provided sources) builds a session
encoding the given human-readable flash message. -/
def setRequestSuccessMessage (message : String) : Session :=
  ⟨message⟩

/-- Modelled from the spec: `setToastMessageCookie` (from
`~/models/message.server`, not in the provided sources) encodes the
session's flash message into a cookie header. -/
def setToastMessageCookie (session : Session) : String :=
  "toast=" ++ session.message

/-- One collaborator interaction performed by the handler. -/
inductive CallEvent where
  | formDataRead
  | disableCall (projectP : String)
  | validateCall (formEntries : List (String × String)) (envVars : List (String × String))
  | updateCall (projectP : String) (data : VData)
  | successMessageCall (message : String)
  | toastCookieCall
deriving DecidableEq, Repr

/-- The body of a `typedjson` response. -/
inductive ResponseBody where
  | validationError (errors : List FieldError)
  | success
deriving DecidableEq, Repr

/-- A terminal response of the handler: a redirect with cookie headers, or a
structured `typedjson` payload with a status code and optional cookie
headers. -/
inductive Response where
  | redirect (location : String) (headers : String)
  | typedjson (body : ResponseBody) (status : Nat) (headers : Option String)
deriving DecidableEq, Repr

/-- Route parameters as handed to the action: each may be absent. -/
structure RouteParams where
  projectP : Option String
  organizationSlug : Option String
deriving DecidableEq, Repr

/-- The zod parse of the path parameters: succeeds exactly when both
`projectP` and `organizationSlug` are present strings. -/
def parseParams (p : RouteParams) : Option (String × String) :=
  match p.projectP, p.organizationSlug with
  | some a, some b => some (a, b)
  | _, _ => none

/-- `formPayload.get(k)`: the value of the first entry with key `k`. -/
def fdGet (fd : List (String × String)) (k : String) : Option String :=
  (fd.find? (fun p => p.1 = k)).map (·.2)

/-- JavaScript object update `{...acc, [k]: v}`: if `k` is already a key its
value is replaced in place, otherwise the pair is appended. -/
def objInsert (acc : List (String × String)) (k v : String) : List (String × String) :=
  if acc.any (fun p => p.1 = k) then
    acc.map (fun p => if p.1 = k then (k, v) else p)
  else
    acc ++ [(k, v)]

/-- `Object.fromEntries(formPayload)`: keys in order of first occurrence,
the last value for each key winning. -/
def fromEntries (l : List (String × String)) : List (String × String) :=
  l.foldl (fun acc kv => objInsert acc kv.1 kv.2) []

/-- Lookup in an association list built by `objInsert` / `fromEntries`. -/
def objGet (l : List (String × String)) (k : String) : Option String :=
  (l.find? (fun p => p.1 = k)).map (·.2)

/-- Remove the first occurrence of `pat` from the character list, as the
JavaScript `String.replace(pat, "")` with a string pattern does. -/
def removeFirstChars (pat : List Char) : List Char → List Char
  | [] => []
  | c :: cs =>
    if pat.isPrefixOf (c :: cs) then (c :: cs).drop pat.length
    else c :: removeFirstChars pat cs

/-- JavaScript `s.replace(pat, "")`: removes the first occurrence only. -/
def removeFirst (pat s : String) : String :=
  ⟨removeFirstChars pat.data s.data⟩

/-- JavaScript `s.startsWith(pre)`. -/
def strStartsWith (s pre : String) : Bool :=
  pre.data.isPrefixOf s.data

/-- JavaScript `s.endsWith(suf)`. -/
def strEndsWith (s suf : String) : Bool :=
  suf.data.isSuffixOf s.data

/-- The environment-variable name the handler recovers from a form key:
`key.replace("envVars[", "").replace("]", "")`. -/
def envVarKeyOf (key : String) : String :=
  removeFirst "]" (removeFirst "envVars[" key)

/-- The reshaped environment-variable mapping: entries of `formEntries`
whose key starts with `envVars[`, folded into an object keyed by the
recovered variable name. -/
def envVars (formEntries : List (String × String)) : List (String × String) :=
  (formEntries.filter (fun kv => strStartsWith kv.1 "envVars[")).foldl
    (fun acc kv => objInsert acc (envVarKeyOf kv.1) kv.2) []

/-- The flash message of the destroy path. -/
def destroyMessage (name : String) : String :=
  "Repository " ++ name ++ " has been removed and will no longer be deployed."

/-- The flash message of the save path, by `isDeploying`. -/
def saveMessage (isDeploying : Bool) : String :=
  if isDeploying then "Settings updated. Deploying your repo now..."
  else "Settings updated. They'll take effect on the next deployment."

/-- The route action.  Returns the response (`none` when the zod parse of
the path parameters throws) together with the ordered trace of collaborator
interactions. -/
def action (env : Env) (params : RouteParams) (fd : List (String × String)) :
    Option Response × List CallEvent :=
  match parseParams params with
  | none => (none, [])
  | some (projectP, organizationSlug) =>
    if fdGet fd "action" = some "destroy" then
      (some (.redirect ("/orgs/" ++ organizationSlug ++ "/projects")
              (setToastMessageCookie
                (setRequestSuccessMessage (destroyMessage (env.disableCall projectP).name)))),
       [.formDataRead, .disableCall projectP,
        .successMessageCall (destroyMessage (env.disableCall projectP).name), .toastCookieCall])
    else
      match env.validate (fromEntries fd) (envVars (fromEntries fd)) with
      | .payloadError errors =>
        (some (.typedjson (.validationError errors) 422 none),
         [.formDataRead, .validateCall (fromEntries fd) (envVars (fromEntries fd))])
      | .success data =>
        if env.updateCall projectP data then
          (some (.redirect ("/orgs/" ++ organizationSlug ++ "/projects/" ++ projectP)
                  (setToastMessageCookie (setRequestSuccessMessage (saveMessage true)))),
           [.formDataRead, .validateCall (fromEntries fd) (envVars (fromEntries fd)),
            .updateCall projectP data, .successMessageCall (saveMessage true), .toastCookieCall])
        else
          (some (.typedjson .success 200
                  (some (setToastMessageCookie (setRequestSuccessMessage (saveMessage false))))),
           [.formDataRead, .validateCall (fromEntries fd) (envVars (fromEntries fd)),
            .updateCall projectP data, .successMessageCall (saveMessage false), .toastCookieCall])

/-- The update-orchestrator calls appearing in a trace. -/
def updateCalls (tr : List CallEvent) : List CallEvent :=
  tr.filter fun e => match e with
    | .updateCall _ _ => true
    | _ => false

/-- Modelled from the spec: the validator's failure variant carries "a
structured list of field-path/message pairs" describing the schema
violations, so a failure always reports at least one violation. -/
def ValidatorAlwaysExplains (env : Env) : Prop :=
  ∀ fe ev errs, env.validate fe ev = .payloadError errs → errs ≠ []

/-- An environment whose validator always fails with one error. -/
def envFail : Env where
  disableCall := fun _ => ⟨"my-repo"⟩
  validate := fun _ _ => .payloadError [⟨"branch", "Required"⟩]
  updateCall := fun _ _ => false

/-- An environment whose validator always succeeds and whose update
orchestrator reports a deployment. -/
def envDeploy : Env where
  disableCall := fun _ => ⟨"my-repo"⟩
  validate := fun _ _ => .success [("branch", "main")]
  updateCall := fun _ _ => true

/-- The example submission from the spec's testable properties. -/
def exampleFields : List (String × String) :=
  [("action", "save"), ("autoDeploy", "yes"), ("branch", "main"),
   ("buildCommand", "npm install"), ("startCommand", "npm start"), ("envVars[FOO]", "bar")]

/-- An environment that succeeds exactly on the example submission,
echoing it as the validated data. -/
def envExample : Env where
  disableCall := fun _ => ⟨"my-repo"⟩
  validate := fun fe ev =>
    if fe = exampleFields ∧ ev = [("FOO", "bar")] then .success (fe ++ ev)
    else .payloadError [⟨"form", "Invalid"⟩]
  updateCall := fun _ _ => true

/-! ### Unfolding lemmas for the four terminal branches of the handler -/

lemma action_none_eq (env : Env) (params : RouteParams) (fd : List (String × String))
    (hp : parseParams params = none) :
    action env params fd = (none, []) := by
  simp [action, hp]

lemma action_destroy_eq (env : Env) (params : RouteParams) (fd : List (String × String))
    (projectP organizationSlug : String)
    (hp : parseParams params = some (projectP, organizationSlug))
    (hact : fdGet fd "action" = some "destroy") :
    action env params fd =
      (some (.redirect ("/orgs/" ++ organizationSlug ++ "/projects")
              (setToastMessageCookie
                (setRequestSuccessMessage (destroyMessage (env.disableCall projectP).name)))),
       [.formDataRead, .disableCall projectP,
        .successMessageCall (destroyMessage (env.disableCall projectP).name), .toastCookieCall]) := by
  simp [action, hp, hact]

lemma action_invalid_eq (env : Env) (params : RouteParams) (fd : List (String × String))
    (projectP organizationSlug : String) (errs : List FieldError)
    (hp : parseParams params = some (projectP, organizationSlug))
    (hact : fdGet fd "action" ≠ some "destroy")
    (hval : env.validate (fromEntries fd) (envVars (fromEntries fd)) = .payloadError errs) :
    action env params fd =
      (some (.typedjson (.validationError errs) 422 none),
       [.formDataRead, .validateCall (fromEntries fd) (envVars (fromEntries fd))]) := by
  simp [action, hp, hact, hval]

lemma action_valid_deploy_eq (env : Env) (params : RouteParams) (fd : List (String × String))
    (projectP organizationSlug : String) (data : VData)
    (hp : parseParams params = some (projectP, organizationSlug))
    (hact : fdGet fd "action" ≠ some "destroy")
    (hval : env.validate (fromEntries fd) (envVars (fromEntries fd)) = .success data)
    (hdep : env.updateCall projectP data = true) :
    action env params fd =
      (some (.redirect ("/orgs/" ++ organizationSlug ++ "/projects/" ++ projectP)
              (setToastMessageCookie (setRequestSuccessMessage (saveMessage true)))),
       [.formDataRead, .validateCall (fromEntries fd) (envVars (fromEntries fd)),
        .updateCall projectP data, .successMessageCall (saveMessage true), .toastCookieCall]) := by
  simp [action, hp, hact, hval, hdep]

lemma action_valid_nodeploy_eq (env : Env) (params : RouteParams) (fd : List (String × String))
    (projectP organizationSlug : String) (data : VData)
    (hp : parseParams params = some (projectP, organizationSlug))
    (hact : fdGet fd "action" ≠ some "destroy")
    (hval : env.validate (fromEntries fd) (envVars (fromEntries fd)) = .success data)
    (hdep : env.updateCall projectP data = false) :
    action env params fd =
      (some (.typedjson .success 200
              (some (setToastMessageCookie (setRequestSuccessMessage (saveMessage false))))),
       [.formDataRead, .validateCall (fromEntries fd) (envVars (fromEntries fd)),
        .updateCall projectP data, .successMessageCall (saveMessage false), .toastCookieCall]) := by
  simp [action, hp, hact, hval, hdep]

/-- C1: for every submission whose `action` field is not "destroy" and whose
payload fails validation, the handler returns a 422 response carrying a
non-empty list of field-path/message errors, and the update orchestrator is
never invoked. -/
theorem c1_invalid_payload_yields_422 (env : Env) (params : RouteParams)
    (fd : List (String × String)) (projectP organizationSlug : String) (errs : List FieldError)
    (hspec : ValidatorAlwaysExplains env)
    (hp : parseParams params = some (projectP, organizationSlug))
    (hact : fdGet fd "action" ≠ some "destroy")
    (hval : env.validate (fromEntries fd) (envVars (fromEntries fd)) = .payloadError errs) :
    (action env params fd).1 = some (.typedjson (.validationError errs) 422 none) ∧
    errs ≠ [] ∧
    updateCalls (action env params fd).2 = [] := by
  rw [action_invalid_eq env params fd projectP organizationSlug errs hp hact hval]
  exact ⟨rfl, hspec _ _ _ hval, rfl⟩

theorem c1_witness :
    (action envFail ⟨some "proj-1", some "org-1"⟩ [("action", "save")]).1 =
      some (.typedjson (.validationError [⟨"branch", "Required"⟩]) 422 none) ∧
    ([⟨"branch", "Required"⟩] : List FieldError) ≠ [] ∧
    updateCalls (action envFail ⟨some "proj-1", some "org-1"⟩ [("action", "save")]).2 = [] :=
  c1_invalid_payload_yields_422 envFail ⟨some "proj-1", some "org-1"⟩ [("action", "save")]
    "proj-1" "org-1" [⟨"branch", "Required"⟩]
    (fun _ _ errs h => by injection h with h2; rw [← h2]; decide)
    rfl (by decide) rfl

/-- C2: for every submission that reaches validation and passes it, the
update orchestrator is called exactly once with the project identifier and
the validated data; `isDeploying = true` yields a redirect to the project
detail view and `isDeploying = false` a 200 success response, both carrying
the flash-message cookie. -/
theorem c2_valid_payload_outcomes (env : Env) (params : RouteParams)
    (fd : List (String × String)) (projectP organizationSlug : String) (data : VData)
    (hp : parseParams params = some (projectP, organizationSlug))
    (hact : fdGet fd "action" ≠ some "destroy")
    (hval : env.validate (fromEntries fd) (envVars (fromEntries fd)) = .success data) :
    updateCalls (action env params fd).2 = [.updateCall projectP data] ∧
    (env.updateCall projectP data = true →
      (action env params fd).1 =
        some (.redirect ("/orgs/" ++ organizationSlug ++ "/projects/" ++ projectP)
          (setToastMessageCookie (setRequestSuccessMessage (saveMessage true))))) ∧
    (env.updateCall projectP data = false →
      (action env params fd).1 =
        some (.typedjson .success 200
          (some (setToastMessageCookie (setRequestSuccessMessage (saveMessage false)))))) := by
  cases hdep : env.updateCall projectP data
  · rw [action_valid_nodeploy_eq env params fd projectP organizationSlug data hp hact hval hdep]
    exact ⟨rfl, fun h => by simp [hdep] at h, fun _ => rfl⟩
  · rw [action_valid_deploy_eq env params fd projectP organizationSlug data hp hact hval hdep]
    exact ⟨rfl, fun _ => rfl, fun h => by simp [hdep] at h⟩

theorem c2_witness :
    updateCalls (action envDeploy ⟨some "proj-1", some "org-1"⟩ [("autoDeploy", "yes")]).2 =
      [.updateCall "proj-1" [("branch", "main")]] ∧
    (envDeploy.updateCall "proj-1" [("branch", "main")] = true →
      (action envDeploy ⟨some "proj-1", some "org-1"⟩ [("autoDeploy", "yes")]).1 =
        some (.redirect ("/orgs/" ++ "org-1" ++ "/projects/" ++ "proj-1")
          (setToastMessageCookie (setRequestSuccessMessage (saveMessage true))))) ∧
    (envDeploy.updateCall "proj-1" [("branch", "main")] = false →
      (action envDeploy ⟨some "proj-1", some "org-1"⟩ [("autoDeploy", "yes")]).1 =
        some (.typedjson .success 200
          (some (setToastMessageCookie (setRequestSuccessMessage (saveMessage false)))))) :=
  c2_valid_payload_outcomes envDeploy ⟨some "proj-1", some "org-1"⟩ [("autoDeploy", "yes")]
    "proj-1" "org-1" [("branch", "main")] rfl (by decide) rfl

/-- C3: every submission with `action = "destroy"` invokes the disable
orchestrator with the project identifier, never invokes the update
orchestrator or the validator, and redirects to the organization's project
list with a flash-message cookie whose text contains the removed project's
name. -/
theorem c3_destroy_disables_and_redirects (env : Env) (params : RouteParams)
    (fd : List (String × String)) (projectP organizationSlug : String)
    (hp : parseParams params = some (projectP, organizationSlug))
    (hact : fdGet fd "action" = some "destroy") :
    (action env params fd).1 =
      some (.redirect ("/orgs/" ++ organizationSlug ++ "/projects")
        (setToastMessageCookie
          (setRequestSuccessMessage (destroyMessage (env.disableCall projectP).name)))) ∧
    CallEvent.disableCall projectP ∈ (action env params fd).2 ∧
    (∀ a b, CallEvent.updateCall a b ∉ (action env params fd).2) ∧
    (∀ a b, CallEvent.validateCall a b ∉ (action env params fd).2) ∧
    (∃ pre suf, setToastMessageCookie
        (setRequestSuccessMessage (destroyMessage (env.disableCall projectP).name)) =
      pre ++ (env.disableCall projectP).name ++ suf) := by
  rw [action_destroy_eq env params fd projectP organizationSlug hp hact]
  refine ⟨rfl, by simp, fun a b => by simp, fun a b => by simp,
    "toast=Repository ", " has been removed and will no longer be deployed.", ?_⟩
  have hlit : ("toast=" : String) ++ "Repository " = "toast=Repository " := rfl
  simp only [setToastMessageCookie, setRequestSuccessMessage, destroyMessage,
    ← String.append_assoc, hlit]

theorem c3_witness :
    (action envDeploy ⟨some "proj-1", some "org-1"⟩ [("action", "destroy")]).1 =
      some (.redirect ("/orgs/" ++ "org-1" ++ "/projects")
        (setToastMessageCookie
          (setRequestSuccessMessage
            (destroyMessage (envDeploy.disableCall "proj-1").name)))) ∧
    CallEvent.disableCall "proj-1" ∈
      (action envDeploy ⟨some "proj-1", some "org-1"⟩ [("action", "destroy")]).2 ∧
    (∀ a b, CallEvent.updateCall a b ∉
      (action envDeploy ⟨some "proj-1", some "org-1"⟩ [("action", "destroy")]).2) ∧
    (∀ a b, CallEvent.validateCall a b ∉
      (action envDeploy ⟨some "proj-1", some "org-1"⟩ [("action", "destroy")]).2) ∧
    (∃ pre suf, setToastMessageCookie
        (setRequestSuccessMessage
          (destroyMessage (envDeploy.disableCall "proj-1").name)) =
      pre ++ (envDeploy.disableCall "proj-1").name ++ suf) :=
  c3_destroy_disables_and_redirects envDeploy ⟨some "proj-1", some "org-1"⟩
    [("action", "destroy")] "proj-1" "org-1" rfl rfl

/-- C7: whenever the handler returns a response at all, that response is an
HTTP redirect carrying a flash-message cookie, a 200 success marker, or a
422 validation-error list; no other terminal outcome exists. -/
theorem c7_terminal_outcomes (env : Env) (params : RouteParams)
    (fd : List (String × String)) (resp : Response)
    (h : (action env params fd).1 = some resp) :
    (∃ loc s, resp = .redirect loc (setToastMessageCookie s)) ∨
    (∃ s, resp = .typedjson .success 200 (some (setToastMessageCookie s))) ∨
    (∃ errs, resp = .typedjson (.validationError errs) 422 none) := by
  rcases hpp : parseParams params with _ | ⟨projectP, organizationSlug⟩
  · rw [action_none_eq env params fd hpp] at h
    exact absurd h (by simp)
  · by_cases hact : fdGet fd "action" = some "destroy"
    · rw [action_destroy_eq env params fd projectP organizationSlug hpp hact] at h
      exact Or.inl ⟨_, _, (Option.some.inj h).symm⟩
    · rcases hval : env.validate (fromEntries fd) (envVars (fromEntries fd)) with errs | data
      · rw [action_invalid_eq env params fd projectP organizationSlug errs hpp hact hval] at h
        exact Or.inr (Or.inr ⟨errs, (Option.some.inj h).symm⟩)
      · cases hdep : env.updateCall projectP data
        · rw [action_valid_nodeploy_eq env params fd projectP organizationSlug data
            hpp hact hval hdep] at h
          exact Or.inr (Or.inl ⟨_, (Option.some.inj h).symm⟩)
        · rw [action_valid_deploy_eq env params fd projectP organizationSlug data
            hpp hact hval hdep] at h
          exact Or.inl ⟨_, _, (Option.some.inj h).symm⟩

theorem c7_witness :
    (∃ loc s, Response.redirect ("/orgs/" ++ "org-1" ++ "/projects")
        (setToastMessageCookie
          (setRequestSuccessMessage
            (destroyMessage (envDeploy.disableCall "proj-1").name))) =
        .redirect loc (setToastMessageCookie s)) ∨
    (∃ s, Response.redirect ("/orgs/" ++ "org-1" ++ "/projects")
        (setToastMessageCookie
          (setRequestSuccessMessage
            (destroyMessage (envDeploy.disableCall "proj-1").name))) =
        .typedjson .success 200 (some (setToastMessageCookie s))) ∨
    (∃ errs, Response.redirect ("/orgs/" ++ "org-1" ++ "/projects")
        (setToastMessageCookie
          (setRequestSuccessMessage
            (destroyMessage (envDeploy.disableCall "proj-1").name))) =
        .typedjson (.validationError errs) 422 none) :=
  c7_terminal_outcomes envDeploy ⟨some "proj-1", some "org-1"⟩ [("action", "destroy")] _ rfl

/-- C8: when the path parameters do not contain both a string `projectP`
and a string `organizationSlug`, the handler fails at the schema parse
before any business logic: no response is produced, the form body is not
read, and no collaborator is invoked (the trace is empty). -/
theorem c8_param_parse_fails_fast (env : Env) (params : RouteParams)
    (fd : List (String × String))
    (h : params.projectP = none ∨ params.organizationSlug = none) :
    action env params fd = (none, []) ∧ ∀ e, e ∉ (action env params fd).2 := by
  have hp : parseParams params = none := by
    obtain ⟨pp, os⟩ := params
    cases pp <;> cases os <;> simp_all [parseParams]
  rw [action_none_eq env params fd hp]
  exact ⟨rfl, fun e => by simp⟩

theorem c8_witness :
    action envDeploy ⟨none, some "org-1"⟩ [("action", "destroy")] = (none, []) ∧
    ∀ e, e ∉ (action envDeploy ⟨none, some "org-1"⟩ [("action", "destroy")]).2 :=
  c8_param_parse_fails_fast envDeploy ⟨none, some "org-1"⟩ [("action", "destroy")]
    (Or.inl rfl)

/-- C9: every `action` value other than exactly "destroy" — "save", an
unknown string, or an absent field — takes the update path: the validator
is invoked on the reshaped fields, on success the update orchestrator is
invoked, a response is produced, and the disable orchestrator is never
invoked. -/
theorem c9_non_destroy_takes_update_path (env : Env) (params : RouteParams)
    (fd : List (String × String)) (projectP organizationSlug : String)
    (hp : parseParams params = some (projectP, organizationSlug))
    (hact : fdGet fd "action" ≠ some "destroy") :
    CallEvent.validateCall (fromEntries fd) (envVars (fromEntries fd)) ∈
      (action env params fd).2 ∧
    (∀ data, env.validate (fromEntries fd) (envVars (fromEntries fd)) = .success data →
      CallEvent.updateCall projectP data ∈ (action env params fd).2) ∧
    (action env params fd).1.isSome = true ∧
    (∀ a, CallEvent.disableCall a ∉ (action env params fd).2) := by
  rcases hval : env.validate (fromEntries fd) (envVars (fromEntries fd)) with errs | data
  · rw [action_invalid_eq env params fd projectP organizationSlug errs hp hact hval]
    refine ⟨by simp, ?_, rfl, fun a => by simp⟩
    intro data hd
    simp at hd
  · cases hdep : env.updateCall projectP data
    · rw [action_valid_nodeploy_eq env params fd projectP organizationSlug data hp hact hval hdep]
      refine ⟨by simp, ?_, rfl, fun a => by simp⟩
      intro d hd
      injection hd with h2
      subst h2
      simp
    · rw [action_valid_deploy_eq env params fd projectP organizationSlug data hp hact hval hdep]
      refine ⟨by simp, ?_, rfl, fun a => by simp⟩
      intro d hd
      injection hd with h2
      subst h2
      simp

theorem c9_witness :
    CallEvent.validateCall (fromEntries [("branch", "main")])
        (envVars (fromEntries [("branch", "main")])) ∈
      (action envDeploy ⟨some "proj-1", some "org-1"⟩ [("branch", "main")]).2 ∧
    (∀ data, envDeploy.validate (fromEntries [("branch", "main")])
        (envVars (fromEntries [("branch", "main")])) = .success data →
      CallEvent.updateCall "proj-1" data ∈
        (action envDeploy ⟨some "proj-1", some "org-1"⟩ [("branch", "main")]).2) ∧
    (action envDeploy ⟨some "proj-1", some "org-1"⟩ [("branch", "main")]).1.isSome = true ∧
    (∀ a, CallEvent.disableCall a ∉
      (action envDeploy ⟨some "proj-1", some "org-1"⟩ [("branch", "main")]).2) :=
  c9_non_destroy_takes_update_path envDeploy ⟨some "proj-1", some "org-1"⟩
    [("branch", "main")] "proj-1" "org-1" rfl (by decide)

/-- C10: on the validation-failure path the 422 response is returned
without invoking the flash-message/session encoder or any orchestrator, so
unlike both success outcomes it carries no flash-message cookie headers. -/
theorem c10_invalid_no_side_effects (env : Env) (params : RouteParams)
    (fd : List (String × String)) (projectP organizationSlug : String) (errs : List FieldError)
    (hp : parseParams params = some (projectP, organizationSlug))
    (hact : fdGet fd "action" ≠ some "destroy")
    (hval : env.validate (fromEntries fd) (envVars (fromEntries fd)) = .payloadError errs) :
    (action env params fd).1 = some (.typedjson (.validationError errs) 422 none) ∧
    (∀ m, CallEvent.successMessageCall m ∉ (action env params fd).2) ∧
    CallEvent.toastCookieCall ∉ (action env params fd).2 ∧
    (∀ a b, CallEvent.updateCall a b ∉ (action env params fd).2) ∧
    (∀ a, CallEvent.disableCall a ∉ (action env params fd).2) := by
  rw [action_invalid_eq env params fd projectP organizationSlug errs hp hact hval]
  exact ⟨rfl, fun m => by simp, by simp, fun a b => by simp, fun a => by simp⟩

theorem c10_witness :
    (action envFail ⟨some "proj-1", some "org-1"⟩ [("autoDeploy", "yes")]).1 =
      some (.typedjson (.validationError [⟨"branch", "Required"⟩]) 422 none) ∧
    (∀ m, CallEvent.successMessageCall m ∉
      (action envFail ⟨some "proj-1", some "org-1"⟩ [("autoDeploy", "yes")]).2) ∧
    CallEvent.toastCookieCall ∉
      (action envFail ⟨some "proj-1", some "org-1"⟩ [("autoDeploy", "yes")]).2 ∧
    (∀ a b, CallEvent.updateCall a b ∉
      (action envFail ⟨some "proj-1", some "org-1"⟩ [("autoDeploy", "yes")]).2) ∧
    (∀ a, CallEvent.disableCall a ∉
      (action envFail ⟨some "proj-1", some "org-1"⟩ [("autoDeploy", "yes")]).2) :=
  c10_invalid_no_side_effects envFail ⟨some "proj-1", some "org-1"⟩ [("autoDeploy", "yes")]
    "proj-1" "org-1" [⟨"branch", "Required"⟩] rfl (by decide) rfl

/-! ### Structural lemmas about the object-update primitive and the
environment-variable fold -/

lemma mem_objInsert {acc : List (String × String)} {k v : String} {p : String × String}
    (h : p ∈ objInsert acc k v) : p = (k, v) ∨ p ∈ acc := by
  unfold objInsert at h
  split at h
  · rcases List.mem_map.mp h with ⟨q, hq, hf⟩
    by_cases hk : q.1 = k
    · rw [if_pos hk] at hf
      exact Or.inl hf.symm
    · rw [if_neg hk] at hf
      exact Or.inr (hf ▸ hq)
  · rcases List.mem_append.mp h with h' | h'
    · exact Or.inr h'
    · exact Or.inl (by simpa using h')

lemma mem_objInsert_self (acc : List (String × String)) (k w : String) :
    (k, w) ∈ objInsert acc k w := by
  unfold objInsert
  split
  · next h =>
    rcases List.any_eq_true.mp h with ⟨q, hq, hqk⟩
    exact List.mem_map.mpr ⟨q, hq, by simp [of_decide_eq_true hqk]⟩
  · exact List.mem_append_right _ (by simp)

lemma exists_mem_objInsert (acc : List (String × String)) (k w n : String)
    (h : ∃ v, (n, v) ∈ acc) : ∃ v, (n, v) ∈ objInsert acc k w := by
  by_cases hn : n = k
  · exact ⟨w, hn ▸ mem_objInsert_self acc k w⟩
  · obtain ⟨v, hv⟩ := h
    unfold objInsert
    split
    · exact ⟨v, List.mem_map.mpr ⟨(n, v), hv, by simp [hn]⟩⟩
    · exact ⟨v, List.mem_append_left _ hv⟩

lemma mem_envFold {l acc : List (String × String)} {p : String × String}
    (h : p ∈ l.foldl (fun acc kv => objInsert acc (envVarKeyOf kv.1) kv.2) acc) :
    p ∈ acc ∨ ∃ kv, kv ∈ l ∧ p = (envVarKeyOf kv.1, kv.2) := by
  induction l generalizing acc with
  | nil => exact Or.inl h
  | cons q l ih =>
    rcases ih h with h' | ⟨kv, hkv, hp⟩
    · rcases mem_objInsert h' with hp | h''
      · exact Or.inr ⟨q, List.mem_cons_self q l, hp⟩
      · exact Or.inl h''
    · exact Or.inr ⟨kv, List.mem_cons_of_mem q hkv, hp⟩

lemma exists_mem_envFold_of_acc {l : List (String × String)} {n : String}
    (acc : List (String × String)) (h : ∃ v, (n, v) ∈ acc) :
    ∃ v, (n, v) ∈ l.foldl (fun acc kv => objInsert acc (envVarKeyOf kv.1) kv.2) acc := by
  induction l generalizing acc with
  | nil => exact h
  | cons q l ih => exact ih _ (exists_mem_objInsert acc (envVarKeyOf q.1) q.2 n h)

lemma exists_mem_envFold {l : List (String × String)} {kv : String × String}
    (acc : List (String × String)) (h : kv ∈ l) :
    ∃ v, (envVarKeyOf kv.1, v) ∈
      l.foldl (fun acc kv => objInsert acc (envVarKeyOf kv.1) kv.2) acc := by
  induction l generalizing acc with
  | nil => cases h
  | cons q l ih =>
    rcases List.mem_cons.mp h with hq | h'
    · subst hq
      exact exists_mem_envFold_of_acc (objInsert acc (envVarKeyOf kv.1) kv.2)
        ⟨kv.2, mem_objInsert_self acc (envVarKeyOf kv.1) kv.2⟩
    · exact ih _ h'

/-- C4 counterexample: the key `envVars[FOO` is prefixed with `envVars[`
but not suffixed with `]`, yet the reshaper still emits the entry
`FOO ↦ bar`; the claim predicts such a key contributes nothing. -/
theorem c4_counterexample :
    strStartsWith "envVars[FOO" "envVars[" = true ∧
    strEndsWith "envVars[FOO" "]" = false ∧
    envVars [("envVars[FOO", "bar")] = [("FOO", "bar")] ∧
    envVars [("envVars[FOO", "bar")] ≠ [] := by
  refine ⟨by decide, by decide, by decide, by decide⟩

/-- C4 (amended): the reshaper's output contains exactly the entries
derived from the keys prefixed with `envVars[` — the suffix is not
examined — with the variable name obtained by removing the first
occurrence of `envVars[` and then the first occurrence of `]`; keys
without the prefix contribute nothing. -/
theorem c4_amended_reshaper_exact (fe : List (String × String)) :
    (∀ p ∈ envVars fe, ∃ k, (k, p.2) ∈ fe ∧ strStartsWith k "envVars[" = true ∧
      envVarKeyOf k = p.1) ∧
    ((∀ kv ∈ fe, strStartsWith kv.1 "envVars[" = false) → envVars fe = []) ∧
    (∀ kv ∈ fe, strStartsWith kv.1 "envVars[" = true →
      ∃ v, (envVarKeyOf kv.1, v) ∈ envVars fe) := by
  refine ⟨?_, ?_, ?_⟩
  · intro p hp
    rcases mem_envFold hp with h | ⟨kv, hkv, hp'⟩
    · cases h
    · rcases List.mem_filter.mp hkv with ⟨hmem, hpred⟩
      exact ⟨kv.1, by rw [hp']; exact hmem, by simpa using hpred, by rw [hp']⟩
  · intro hnone
    unfold envVars
    rw [List.filter_eq_nil_iff.mpr fun kv hkv => by simp [hnone kv hkv]]
    rfl
  · intro kv hkv hpre
    exact exists_mem_envFold [] (List.mem_filter.mpr ⟨hkv, by simpa using hpre⟩)

theorem c4_witness :
    (∃ k, (k, "bar") ∈ [("autoDeploy", "yes"), ("envVars[FOO]", "bar")] ∧
      strStartsWith k "envVars[" = true ∧ envVarKeyOf k = "FOO") ∧
    envVars [("autoDeploy", "yes")] = [] ∧
    (∃ v, (envVarKeyOf "envVars[FOO]", v) ∈
      envVars [("autoDeploy", "yes"), ("envVars[FOO]", "bar")]) :=
  ⟨(c4_amended_reshaper_exact [("autoDeploy", "yes"), ("envVars[FOO]", "bar")]).1
      ("FOO", "bar") (by decide),
   (c4_amended_reshaper_exact [("autoDeploy", "yes")]).2.1 (by decide),
   (c4_amended_reshaper_exact [("autoDeploy", "yes"), ("envVars[FOO]", "bar")]).2.2
      ("envVars[FOO]", "bar") (by decide) (by decide)⟩

/-! ### Recovering a well-formed variable name from its wrapped key -/

lemma isPrefixOf_append_self (l r : List Char) : l.isPrefixOf (l ++ r) = true := by
  induction l with
  | nil => cases r <;> rfl
  | cons c l ih => simp [List.isPrefixOf, ih]

lemma removeFirstChars_cancel (pat rest : List Char) (h : pat ≠ []) :
    removeFirstChars pat (pat ++ rest) = rest := by
  cases pat with
  | nil => exact absurd rfl h
  | cons p ps =>
    show removeFirstChars (p :: ps) (p :: (ps ++ rest)) = rest
    unfold removeFirstChars
    simp only [← List.cons_append]
    rw [if_pos (isPrefixOf_append_self (p :: ps) rest)]
    exact List.drop_left (p :: ps) rest

lemma removeFirstChars_close (xs : List Char) (h : ']' ∉ xs) :
    removeFirstChars [']'] (xs ++ [']']) = xs := by
  induction xs with
  | nil => rfl
  | cons c cs ih =>
    have hc : c ≠ ']' := fun hc => h (hc ▸ List.mem_cons_self c cs)
    show removeFirstChars [']'] (c :: (cs ++ [']'])) = c :: cs
    unfold removeFirstChars
    rw [if_neg (by simp [List.isPrefixOf]; exact fun h' => hc h'.symm)]
    rw [ih fun hx => h (List.mem_cons_of_mem c hx)]

lemma envVarKeyOf_wrap (A : String) (h : ']' ∉ A.data) :
    envVarKeyOf ("envVars[" ++ A ++ "]") = A := by
  unfold envVarKeyOf removeFirst
  have h1 : ("envVars[" ++ A ++ "]").data = "envVars[".data ++ (A.data ++ [']']) := by
    simp [String.data_append]
  rw [h1, removeFirstChars_cancel _ _ (by decide)]
  show (⟨removeFirstChars [']'] (A.data ++ [']'])⟩ : String) = A
  rw [removeFirstChars_close _ h]

/-- C5 counterexample: the mapping contains `envVars[A] = x` and
`envVars[B] = y` with `A ≠ B`, yet the output does not map `A` to `x`: a
later duplicate `envVars[A] = z` overrides it, so the claim's unqualified
first clause fails. -/
theorem c5_counterexample :
    ("envVars[A]", "x") ∈
      ([("envVars[A]", "x"), ("envVars[B]", "y"), ("envVars[A]", "z")] :
        List (String × String)) ∧
    ("envVars[B]", "y") ∈
      ([("envVars[A]", "x"), ("envVars[B]", "y"), ("envVars[A]", "z")] :
        List (String × String)) ∧
    ("A" : String) ≠ "B" ∧
    objGet (envVars [("envVars[A]", "x"), ("envVars[B]", "y"), ("envVars[A]", "z")]) "A" ≠
      some "x" ∧
    objGet (envVars [("envVars[A]", "x"), ("envVars[B]", "y"), ("envVars[A]", "z")]) "A" =
      some "z" := by
  refine ⟨by decide, by decide, by decide, by decide, by decide⟩

/-- C5 (amended): when the `envVars[`-prefixed entries of the mapping are
exactly `envVars[A] = x` and `envVars[B] = y` — in either order — for
distinct names `A`, `B` not containing `]`, the output maps `A` to `x` and
`B` to `y`; and when they are exactly `envVars[A] = x` followed by
`envVars[A] = z`, the last occurrence wins and the output maps `A` to `z`. -/
theorem c5_amended_order_and_last_wins (A B x y z : String)
    (l₁ l₂ : List (String × String))
    (hA : ']' ∉ A.data) (hB : ']' ∉ B.data) (hAB : A ≠ B)
    (h₁ : l₁.filter (fun kv => strStartsWith kv.1 "envVars[") =
            [("envVars[" ++ A ++ "]", x), ("envVars[" ++ B ++ "]", y)] ∨
          l₁.filter (fun kv => strStartsWith kv.1 "envVars[") =
            [("envVars[" ++ B ++ "]", y), ("envVars[" ++ A ++ "]", x)])
    (h₂ : l₂.filter (fun kv => strStartsWith kv.1 "envVars[") =
            [("envVars[" ++ A ++ "]", x), ("envVars[" ++ A ++ "]", z)]) :
    (objGet (envVars l₁) A = some x ∧ objGet (envVars l₁) B = some y) ∧
    objGet (envVars l₂) A = some z := by
  have hkA := envVarKeyOf_wrap A hA
  have hkB := envVarKeyOf_wrap B hB
  refine ⟨?_, ?_⟩
  · rcases h₁ with h₁ | h₁ <;>
      (unfold envVars; rw [h₁]) <;>
      constructor <;>
      simp [objInsert, objGet, hkA, hkB, hAB, Ne.symm hAB]
  · unfold envVars
    rw [h₂]
    simp [objInsert, objGet, hkA]

theorem c5_witness :
    (objGet (envVars [("autoDeploy", "yes"), ("envVars[FOO]", "1"), ("envVars[BAR]", "2")])
        "FOO" = some "1" ∧
     objGet (envVars [("autoDeploy", "yes"), ("envVars[FOO]", "1"), ("envVars[BAR]", "2")])
        "BAR" = some "2") ∧
    objGet (envVars [("envVars[FOO]", "1"), ("envVars[FOO]", "3")]) "FOO" = some "3" :=
  c5_amended_order_and_last_wins "FOO" "BAR" "1" "2" "3"
    [("autoDeploy", "yes"), ("envVars[FOO]", "1"), ("envVars[BAR]", "2")]
    [("envVars[FOO]", "1"), ("envVars[FOO]", "3")]
    (by decide) (by decide) (by decide) (Or.inl (by decide)) (by decide)

/-- C6: on the save path the validator receives the flat fields plus the
reshaped mapping: for the example submission the reshaped mapping is
exactly `FOO ↦ bar`, the scalar fields are passed through untouched, and on
success the update orchestrator is called with the project identifier and
the validated data. -/
theorem c6_example_normalization (env : Env) (data : VData)
    (hval : env.validate exampleFields [("FOO", "bar")] = .success data) :
    fromEntries exampleFields = exampleFields ∧
    envVars exampleFields = [("FOO", "bar")] ∧
    objGet exampleFields "autoDeploy" = some "yes" ∧
    objGet exampleFields "branch" = some "main" ∧
    objGet exampleFields "buildCommand" = some "npm install" ∧
    objGet exampleFields "startCommand" = some "npm start" ∧
    CallEvent.validateCall exampleFields [("FOO", "bar")] ∈
      (action env ⟨some "my-project", some "my-org"⟩ exampleFields).2 ∧
    CallEvent.updateCall "my-project" data ∈
      (action env ⟨some "my-project", some "my-org"⟩ exampleFields).2 := by
  have hfe : fromEntries exampleFields = exampleFields := by decide
  have hev : envVars exampleFields = [("FOO", "bar")] := by decide
  have hval2 : env.validate (fromEntries exampleFields) (envVars (fromEntries exampleFields)) =
      .success data := by
    rw [hfe, hev]
    exact hval
  have hact : fdGet exampleFields "action" ≠ some "destroy" := by decide
  have hp : parseParams ⟨some "my-project", some "my-org"⟩ =
      some ("my-project", "my-org") := rfl
  refine ⟨hfe, hev, by decide, by decide, by decide, by decide, ?_, ?_⟩ <;>
    cases hdep : env.updateCall "my-project" data <;>
    first
    | (rw [action_valid_nodeploy_eq env ⟨some "my-project", some "my-org"⟩ exampleFields
          "my-project" "my-org" data hp hact hval2 hdep, hfe, hev]
       simp)
    | (rw [action_valid_deploy_eq env ⟨some "my-project", some "my-org"⟩ exampleFields
          "my-project" "my-org" data hp hact hval2 hdep, hfe, hev]
       simp)

theorem c6_witness :
    fromEntries exampleFields = exampleFields ∧
    envVars exampleFields = [("FOO", "bar")] ∧
    objGet exampleFields "autoDeploy" = some "yes" ∧
    objGet exampleFields "branch" = some "main" ∧
    objGet exampleFields "buildCommand" = some "npm install" ∧
    objGet exampleFields "startCommand" = some "npm start" ∧
    CallEvent.validateCall exampleFields [("FOO", "bar")] ∈
      (action envExample ⟨some "my-project", some "my-org"⟩ exampleFields).2 ∧
    CallEvent.updateCall "my-project" (exampleFields ++ [("FOO", "bar")]) ∈
      (action envExample ⟨some "my-project", some "my-org"⟩ exampleFields).2 :=
  c6_example_normalization envExample (exampleFields ++ [("FOO", "bar")]) (by decide)

end Settings
